import Mathlib

/-!
Shallow embedding of the `AwsS3Store` class (whatsapp-web.js session store
backed by AWS S3).  The JavaScript source is a single class with a
constructor, `isValidConfig`, `sessionExists`, `save` (single-shot PUT for
files of at most 4 GiB, multipart upload above that, flushing a chunk
buffer whenever it reaches 20 MiB), `extract` and `delete`.

Modelling conventions:
* Bytes are `Nat`s; a stream chunk is a `List Nat`; `Buffer.concat` is
  `List.flatten` and `.length` is list length in bytes.
* The S3 client and the local filesystem are environments supplied as
  explicit parameters: each `send` of a command either succeeds with the
  value the code reads from the response, or fails with an `S3Error`
  (name + message), mirroring a thrown AWS SDK error.
* Each method is a pure function returning its JS result together with the
  list of S3 commands it issued, in order.  A JS `return` of `undefined`
  is `Option.none` (or `Except.ok ()` for `void` methods); a JS `throw`
  that escapes the method is `Except.error`.
* JS string falsiness (`!x` true for `undefined` and `""`) is modelled on
  `Option String`.
-/

/-- A thrown AWS SDK / filesystem error: the fields the code inspects. -/
structure S3Error where
  name : String
  message : String
deriving Repr, DecidableEq

/-- `$metadata` of an SDK response (`httpStatusCode` may be absent). -/
structure ResponseMetadata where
  httpStatusCode : Option Nat
deriving Repr, DecidableEq

/-- Response of `ListObjectsCommand` as inspected by `isValidConfig`:
only `$metadata` (itself possibly absent) is read. -/
structure ListObjectsResult where
  metadata : Option ResponseMetadata
deriving Repr, DecidableEq

/-- An entry of the `parts` array accumulated by the multipart path:
`{ PartNumber, ETag }`. -/
structure PartEntry where
  PartNumber : Nat
  ETag : String
deriving Repr, DecidableEq

/-- The S3 commands the class can `send` (plus `abortMultipartUpload`,
which exists in the S3 protocol; the embedding lets us state that `save`
never issues it). -/
inductive S3Command where
  | listObjects (bucket : String)
  | headObject (bucket key : String)
  | putObject (bucket key : String) (contentType contentEncoding : String)
  | getObject (bucket key : String)
  | deleteObject (bucket key : String)
  | createMultipartUpload (bucket key acl contentType : String)
  | uploadPart (bucket key uploadId : String) (partNumber : Nat) (body : List Nat)
  | completeMultipartUpload (bucket key uploadId : String) (parts : List PartEntry)
  | abortMultipartUpload (bucket key uploadId : String)
deriving Repr, DecidableEq

/-- The constructed store: `bucketName`, `remoteDataPath`, the client
handle (modelled as presence), and the debug flag read from the process
environment at construction time. -/
structure AwsS3Store where
  bucketName : String
  remoteDataPath : String
  s3Client : Bool
  debugEnabled : Bool
deriving Repr, DecidableEq

/-- Constructor options `{ bucketName, remoteDataPath, s3Client }`;
string fields may be absent (`undefined`). -/
structure StoreOptions where
  bucketName : Option String
  remoteDataPath : Option String
  s3Client : Bool
deriving Repr, DecidableEq

/-- The per-call `options` object: `options.session` and the local
destination `options.path` used by `extract` (and never by `save`). -/
structure CallOptions where
  session : Option String
  path : Option String
deriving Repr, DecidableEq

/-- JS falsiness of a possibly-absent string: `!x` is true exactly for
`undefined` and `""`. -/
def jsStrFalsy : Option String → Bool
  | none => true
  | some s => s = ""

/-- JS template-literal rendering of a possibly-absent string
(`${undefined}` prints as "undefined"). -/
def jsStr : Option String → String
  | none => "undefined"
  | some s => s

/-- `constructor({ bucketName, remoteDataPath, s3Client } = {})`
(source lines 20–28): throws on any falsy field, otherwise stores the
three fields unchanged and reads the debug flag from the environment. -/
def AwsS3Store.construct (o : StoreOptions) (storeDebugEnv : Bool) :
    Except String AwsS3Store :=
  if jsStrFalsy o.bucketName then
    .error "A valid bucket name is required for AwsS3Store."
  else if jsStrFalsy o.remoteDataPath then
    .error "A valid remote dir path is required for AwsS3Store."
  else if o.s3Client = false then
    .error "A valid S3Client instance is required for AwsS3Store."
  else
    .ok { bucketName := jsStr o.bucketName,
          remoteDataPath := jsStr o.remoteDataPath,
          s3Client := true,
          debugEnabled := storeDebugEnv }

/-- Split a character list at `'/'` (helper for the `path.join` model). -/
def splitOnSlash : List Char → List (List Char)
  | [] => [[]]
  | c :: rest =>
    match splitOnSlash rest with
    | [] => if c = '/' then [[], []] else [[c]]
    | s :: ss => if c = '/' then [] :: s :: ss else (c :: s) :: ss

/-- Model of Node's POSIX `path.join` for two arguments, for paths
without `.` / `..` segments: concatenate, drop empty segments, join with
`'/'`, keeping a leading `'/'` when the first argument is absolute. -/
def pathJoin (a b : String) : String :=
  let segs := (splitOnSlash a.data ++ splitOnSlash b.data).filter (· ≠ [])
  let isAbs := a.data.head? = some '/'
  match segs with
  | [] => if isAbs then "/" else "."
  | _ => ⟨(if isAbs then ['/'] else []) ++ List.intercalate ['/'] segs⟩

/-- `.replace(/\\/g, '/')`: every backslash becomes a forward slash. -/
def backslashToSlash (s : String) : String :=
  ⟨s.data.map (fun c => if c = '\\' then '/' else c)⟩

/-- Remote key derivation used identically by every method (e.g. source
line 65): `path.join(remoteDataPath, session + ".zip").replace(/\\/g, '/')`. -/
def deriveKey (remoteDataPath session : String) : String :=
  backslashToSlash (pathJoin remoteDataPath (session ++ ".zip"))

/-- Result of `isValidConfig`: the boolean, the `console.log` lines it
printed, and the S3 commands it sent. -/
structure ValidResult where
  valid : Bool
  logs : List String
  cmds : List S3Command
deriving Repr, DecidableEq

/-- `isValidConfig(options)` (source lines 30–58): four short-circuiting
falsiness checks, then the `ListObjectsCommand` probe.  On a probe
response it requires `$metadata.httpStatusCode` to be present, truthy and
equal to 200; on a thrown probe error it logs and returns `true`. -/
def isValidConfig (store : AwsS3Store) (o : CallOptions)
    (probe : Except S3Error ListObjectsResult) : ValidResult :=
  if jsStrFalsy o.session then
    ⟨false, ["Error: A valid session is required for AwsS3Store."], []⟩
  else if store.bucketName = "" then
    ⟨false, ["Error: A valid bucket name is required for AwsS3Store."], []⟩
  else if store.remoteDataPath = "" then
    ⟨false, ["Error: A valid remote dir path is required for AwsS3Store."], []⟩
  else if store.s3Client = false then
    ⟨false, ["Error: A valid S3Client instance is required for AwsS3Store."], []⟩
  else
    match probe with
    | .ok result =>
      match result.metadata with
      | none => ⟨false, [], [.listObjects store.bucketName]⟩
      | some md =>
        match md.httpStatusCode with
        | none => ⟨false, [], [.listObjects store.bucketName]⟩
        | some code =>
          if code = 0 then ⟨false, [], [.listObjects store.bucketName]⟩
          else if code ≠ 200 then ⟨false, [], [.listObjects store.bucketName]⟩
          else ⟨true, [], [.listObjects store.bucketName]⟩
    | .error _ =>
      ⟨true, ["Error: Invalid AwsS3Store configuration"],
        [.listObjects store.bucketName]⟩

/-- Client environment for the single-request methods: the outcome the
client would give to each command kind (each is sent at most once). -/
structure ProbeEnv where
  listObjects : Except S3Error ListObjectsResult
  headObject : Except S3Error Unit
  deleteObject : Except S3Error Unit

/-- `sessionExists(options)` (source lines 60–83): config check, derive
key, `HeadObjectCommand`; success gives `true`, a `NoSuchKey`/`NotFound`
error gives `false`, any other error is swallowed and the method returns
`undefined` (`none`).  Returns the JS result and the commands sent. -/
def sessionExists (store : AwsS3Store) (o : CallOptions) (env : ProbeEnv) :
    Option Bool × List S3Command :=
  let v := isValidConfig store o env.listObjects
  if v.valid = false then (none, v.cmds)
  else
    let remoteFilePath := deriveKey store.remoteDataPath (jsStr o.session)
    let headCmd := S3Command.headObject store.bucketName remoteFilePath
    match env.headObject with
    | .ok _ => (some true, v.cmds ++ [headCmd])
    | .error err =>
      if err.name = "NoSuchKey" ∨ err.name = "NotFound" then
        (some false, v.cmds ++ [headCmd])
      else
        (none, v.cmds ++ [headCmd])

/-- `delete(options)` (source lines 214–237): config check, derive key,
`HeadObjectCommand`, and only on its success a `DeleteObjectCommand`; the
single `catch` swallows every error (`NoSuchKey`/`NotFound` and all
others alike), so the method always returns normally. -/
def deletePure (store : AwsS3Store) (o : CallOptions) (env : ProbeEnv) :
    Except S3Error Unit × List S3Command :=
  let v := isValidConfig store o env.listObjects
  if v.valid = false then (.ok (), v.cmds)
  else
    let remoteFilePath := deriveKey store.remoteDataPath (jsStr o.session)
    let headCmd := S3Command.headObject store.bucketName remoteFilePath
    let delCmd := S3Command.deleteObject store.bucketName remoteFilePath
    match env.headObject with
    | .ok _ =>
      match env.deleteObject with
      | .ok _ => (.ok (), v.cmds ++ [headCmd, delCmd])
      | .error err =>
        if err.name = "NoSuchKey" ∨ err.name = "NotFound" then
          (.ok (), v.cmds ++ [headCmd, delCmd])
        else
          (.ok (), v.cmds ++ [headCmd, delCmd])
    | .error err =>
      if err.name = "NoSuchKey" ∨ err.name = "NotFound" then
        (.ok (), v.cmds ++ [headCmd])
      else
        (.ok (), v.cmds ++ [headCmd])

/-- What `fs` knows about a local file: `statSync(...).size` and the
chunk sequence its read stream yields (`for await (const chunk of ...)`). -/
structure FileInfo where
  size : Nat
  chunks : List (List Nat)
deriving Repr, DecidableEq

/-- Client + filesystem environment for `save`.  `fs` maps a local path
to its file (or a thrown stat error); `uploadPart` gives the outcome of
the `UploadPartCommand` for each part number (the `ETag` the code reads,
or a thrown error). -/
structure SaveEnv where
  listObjects : Except S3Error ListObjectsResult
  fs : String → Except S3Error FileInfo
  putObject : Except S3Error Unit
  createMultipartUpload : Except S3Error String
  uploadPart : Nat → Except S3Error String
  completeUpload : Except S3Error Unit

/-- 20 MiB: `const partSize = 1024 * 1024 * 20` (source line 96). -/
def partSize : Nat := 1024 * 1024 * 20

/-- 4 GiB: the single-shot threshold `1024 * 1024 * 1024 * 4`
(source line 99). -/
def singleShotLimit : Nat := 1024 * 1024 * 1024 * 4

/-- The local archive path `save` stats and streams:
the template literal `` `${options.session}.zip` `` (source lines 94,
101, 125) — relative to the working directory, never `options.path`. -/
def localArchivePath (o : CallOptions) : String :=
  jsStr o.session ++ ".zip"

/-- The `for await (const chunk of fileStream)` loop of the multipart
path (source lines 132–153).  State: remaining chunks, next `partNumber`,
the accumulated `buffer` (a list of chunks).  Each chunk is pushed onto
the buffer; when `Buffer.concat(buffer).length` reaches `partSize` the
buffer is uploaded as one part, its `{PartNumber, ETag}` recorded, the
counter incremented and the buffer reset.  Returns the recorded parts,
the next part number and the leftover buffer (or the first thrown
error), together with the `UploadPartCommand`s sent. -/
def streamLoop (env : SaveEnv) (bucket key uploadId : String) :
    List (List Nat) → Nat → List (List Nat) →
    Except S3Error (List PartEntry × Nat × List (List Nat)) × List S3Command
  | [], partNumber, buffer => (.ok ([], partNumber, buffer), [])
  | chunk :: rest, partNumber, buffer =>
    let buffer1 := buffer ++ [chunk]
    let bufferSize := buffer1.flatten.length
    if partSize ≤ bufferSize then
      let cmd := S3Command.uploadPart bucket key uploadId partNumber buffer1.flatten
      match env.uploadPart partNumber with
      | .error e => (.error e, [cmd])
      | .ok etag =>
        let r := streamLoop env bucket key uploadId rest (partNumber + 1) []
        (r.1.map (fun x => (⟨partNumber, etag⟩ :: x.1, x.2)), cmd :: r.2)
    else
      streamLoop env bucket key uploadId rest partNumber buffer1

/-- `save(options)` (source lines 85–185): config check, derive key,
`statSync` the local archive; at most `singleShotLimit` bytes means one
`PutObjectCommand` (zip content type, gzip content encoding, acceleration
requested), larger means `CreateMultipartUploadCommand`, the stream loop,
a final part for any leftover buffer (`buffer.length > 0` tests the chunk
array), and `CompleteMultipartUploadCommand` with the recorded parts.
The surrounding `try`/`catch` re-throws every error (`throw error`,
line 183).  Returns the JS outcome and the commands sent, in order. -/
def savePure (store : AwsS3Store) (o : CallOptions) (env : SaveEnv) :
    Except S3Error Unit × List S3Command :=
  let v := isValidConfig store o env.listObjects
  if v.valid = false then (.ok (), v.cmds)
  else
    let remoteFilePath := deriveKey store.remoteDataPath (jsStr o.session)
    match env.fs (localArchivePath o) with
    | .error e => (.error e, v.cmds)
    | .ok info =>
      if info.size ≤ singleShotLimit then
        let putCmd := S3Command.putObject store.bucketName remoteFilePath
          "application/zip" "gzip"
        match env.putObject with
        | .ok _ => (.ok (), v.cmds ++ [putCmd])
        | .error e => (.error e, v.cmds ++ [putCmd])
      else
        let createCmd := S3Command.createMultipartUpload store.bucketName
          remoteFilePath "private" "application/zip"
        match env.createMultipartUpload with
        | .error e => (.error e, v.cmds ++ [createCmd])
        | .ok uploadId =>
          let lr :=
            streamLoop env store.bucketName remoteFilePath uploadId info.chunks 1 []
          match lr.1 with
          | .error e => (.error e, v.cmds ++ [createCmd] ++ lr.2)
          | .ok (parts, partNumber, buffer) =>
            let rem : Except S3Error (List PartEntry) × List S3Command :=
              if buffer.length > 0 then
                let cmd := S3Command.uploadPart store.bucketName remoteFilePath
                  uploadId partNumber buffer.flatten
                match env.uploadPart partNumber with
                | .error e => (.error e, [cmd])
                | .ok etag => (.ok (parts ++ [⟨partNumber, etag⟩]), [cmd])
              else (.ok parts, [])
            match rem.1 with
            | .error e =>
              (.error e, v.cmds ++ [createCmd] ++ lr.2 ++ rem.2)
            | .ok allParts =>
              let completeCmd := S3Command.completeMultipartUpload
                store.bucketName remoteFilePath uploadId allParts
              match env.completeUpload with
              | .ok _ =>
                (.ok (), v.cmds ++ [createCmd] ++ lr.2 ++ rem.2 ++ [completeCmd])
              | .error e =>
                (.error e, v.cmds ++ [createCmd] ++ lr.2 ++ rem.2 ++ [completeCmd])

/-- A store as built by a successful construction. -/
def exStore : AwsS3Store :=
  { bucketName := "bkt", remoteDataPath := "prod/auth",
    s3Client := true, debugEnabled := false }

/-- A call-options object for session `"work-phone"`. -/
def exOpts : CallOptions :=
  { session := some "work-phone", path := some "/tmp/out.zip" }

/-- A listing probe that reports HTTP 200. -/
def okProbe : Except S3Error ListObjectsResult :=
  .ok { metadata := some { httpStatusCode := some 200 } }

/-- A filesystem with a 50 MiB archive for session `"work-phone"` and
nothing else, an S3 client on which every call succeeds. -/
def exSaveEnv : SaveEnv :=
  { listObjects := okProbe,
    fs := fun p =>
      if p = "work-phone.zip" then .ok ⟨50 * 1024 * 1024, [[1, 2, 3]]⟩
      else .error ⟨"ENOENT", "no such file or directory"⟩,
    putObject := .ok (),
    createMultipartUpload := .ok "uploadId",
    uploadPart := fun n => .ok ("etag-" ++ toString n),
    completeUpload := .ok () }

/-- A second filesystem agreeing with `exSaveEnv.fs` only at
`"work-phone.zip"`. -/
def exAltFs : String → Except S3Error FileInfo := fun p =>
  if p = "work-phone.zip" then .ok ⟨50 * 1024 * 1024, [[1, 2, 3]]⟩
  else .ok ⟨0, []⟩

/-- Is this command a `PutObjectCommand`? -/
def isPutCmd : S3Command → Bool
  | .putObject _ _ _ _ => true
  | _ => false

/-- Is this command a `CreateMultipartUploadCommand`? -/
def isCreateCmd : S3Command → Bool
  | .createMultipartUpload _ _ _ _ => true
  | _ => false

/-- Is this command an `UploadPartCommand`? -/
def isUploadPartCmd : S3Command → Bool
  | .uploadPart _ _ _ _ _ => true
  | _ => false

/-- Is this command a `CompleteMultipartUploadCommand`? -/
def isCompleteCmd : S3Command → Bool
  | .completeMultipartUpload _ _ _ _ => true
  | _ => false

/-- Is this command an `AbortMultipartUploadCommand`? -/
def isAbortCmd : S3Command → Bool
  | .abortMultipartUpload _ _ _ => true
  | _ => false

/-- Byte size of the body of an `UploadPartCommand` (0 for any other
command). -/
def uploadBodyLen : S3Command → Nat
  | .uploadPart _ _ _ _ body => body.length
  | _ => 0

/-- A client/filesystem environment holding a 4 GiB + 4 MiB archive for
session `"work-phone"`, streamed as 65600 chunks of 64 KiB. -/
def exWitEnv : SaveEnv :=
  { exSaveEnv with
    fs := fun p =>
      if p = "work-phone.zip" then
        .ok ⟨4299161600, List.replicate 65600 (List.replicate 65536 0)⟩
      else .error ⟨"ENOENT", "no such file or directory"⟩ }

/-- A client/filesystem environment holding a 4.5 GiB archive for
session `"work-phone"`, streamed as 73728 chunks of 64 KiB. -/
def exHugeEnv : SaveEnv :=
  { exSaveEnv with
    fs := fun p =>
      if p = "work-phone.zip" then
        .ok ⟨4831838208, List.replicate 73728 (List.replicate 65536 0)⟩
      else .error ⟨"ENOENT", "no such file or directory"⟩ }

/-- An environment whose archive is just over 4 GiB by `stat` while the
stream yields one single-byte chunk (chunk bound `C = 1`). -/
def exBigEnv : SaveEnv :=
  { exSaveEnv with
    fs := fun p =>
      if p = "work-phone.zip" then .ok ⟨4294967297, [[0]]⟩
      else .error ⟨"ENOENT", "no such file or directory"⟩ }

/-! ## Shared lemmas and concrete instances -/

/-- `backslashToSlash` output never contains a backslash. -/
theorem backslashToSlash_no_backslash (t : String) :
    '\\' ∉ (backslashToSlash t).data := by
  intro h
  simp only [backslashToSlash, List.mem_map] at h
  obtain ⟨c, _, hc⟩ := h
  by_cases h' : c = '\\' <;> simp [h'] at hc

/-- Every command `isValidConfig` sends is the `ListObjectsCommand`
probe on the configured bucket. -/
theorem isValidConfig_cmds (store : AwsS3Store) (o : CallOptions)
    (probe : Except S3Error ListObjectsResult) :
    ∀ c ∈ (isValidConfig store o probe).cmds,
      c = S3Command.listObjects store.bucketName := by
  intro c hc
  unfold isValidConfig at hc
  repeat' split at hc
  all_goals simp_all

/-! ## C3: key derivation -/

/-- C3: key derivation is a pure deterministic function: it is exactly
`path.join(remoteDataPath, session + ".zip")` with every backslash
replaced by a forward slash; applying it twice to the same inputs gives
identical output; the output never contains a backslash; and base path
`"prod/auth"` with session `"work-phone"` gives
`"prod/auth/work-phone.zip"`. -/
theorem deriveKey_pure_deterministic :
    (∀ p s : String,
      deriveKey p s = backslashToSlash (pathJoin p (s ++ ".zip"))) ∧
    (∀ p s : String, deriveKey p s = deriveKey p s) ∧
    (∀ p s : String, '\\' ∉ (deriveKey p s).data) ∧
    deriveKey "prod/auth" "work-phone" = "prod/auth/work-phone.zip" :=
  ⟨fun _ _ => rfl, fun _ _ => rfl,
   fun p s => backslashToSlash_no_backslash (pathJoin p (s ++ ".zip")),
   by decide⟩

/-! ## C8: constructor validation -/

/-- C8: constructing the store with a falsy (absent or empty) bucket
name, remote path, or absent client raises at construction, with the
checks in that order; with all three present construction succeeds and
stores them unchanged. -/
theorem construct_validates (o : StoreOptions) (d : Bool) :
    (jsStrFalsy o.bucketName = true →
      AwsS3Store.construct o d =
        .error "A valid bucket name is required for AwsS3Store.") ∧
    (jsStrFalsy o.bucketName = false → jsStrFalsy o.remoteDataPath = true →
      AwsS3Store.construct o d =
        .error "A valid remote dir path is required for AwsS3Store.") ∧
    (jsStrFalsy o.bucketName = false → jsStrFalsy o.remoteDataPath = false →
      o.s3Client = false →
      AwsS3Store.construct o d =
        .error "A valid S3Client instance is required for AwsS3Store.") ∧
    (jsStrFalsy o.bucketName = false → jsStrFalsy o.remoteDataPath = false →
      o.s3Client = true →
      AwsS3Store.construct o d =
        .ok { bucketName := jsStr o.bucketName,
              remoteDataPath := jsStr o.remoteDataPath,
              s3Client := true, debugEnabled := d }) := by
  refine ⟨fun h1 => ?_, fun h1 h2 => ?_, fun h1 h2 h3 => ?_, fun h1 h2 h3 => ?_⟩
  · simp [AwsS3Store.construct, h1]
  · simp [AwsS3Store.construct, h1, h2]
  · simp [AwsS3Store.construct, h1, h2, h3]
  · simp [AwsS3Store.construct, h1, h2, h3]

/-- Witness for C8: a fully-supplied construction succeeds and stores
the fields; a construction missing its bucket name raises the bucket
message. -/
theorem construct_validates_witness :
    AwsS3Store.construct
        { bucketName := some "bkt", remoteDataPath := some "prod/auth",
          s3Client := true } false =
      .ok { bucketName := "bkt", remoteDataPath := "prod/auth",
            s3Client := true, debugEnabled := false } ∧
    AwsS3Store.construct
        { bucketName := none, remoteDataPath := some "prod/auth",
          s3Client := true } false =
      .error "A valid bucket name is required for AwsS3Store." :=
  ⟨(construct_validates
      { bucketName := some "bkt", remoteDataPath := some "prod/auth",
        s3Client := true } false).2.2.2 (by decide) (by decide) rfl,
   (construct_validates
      { bucketName := none, remoteDataPath := some "prod/auth",
        s3Client := true } false).1 (by decide)⟩

/-! ## C4: configuration validator -/

/-- C4: `isValidConfig` returns `false` for a missing session, bucket
name, remote path or client, checked in that order with short-circuiting
(the returned log shows only the first failing check and no probe is
sent); once the static checks pass, a probe response yields `true`
exactly when `$metadata.httpStatusCode` is 200, while a thrown probe
error yields `true` (the error is logged, never propagated — the model
is a total function). -/
theorem isValidConfig_spec (store : AwsS3Store) (o : CallOptions)
    (probe : Except S3Error ListObjectsResult) :
    (jsStrFalsy o.session = true →
      isValidConfig store o probe =
        ⟨false, ["Error: A valid session is required for AwsS3Store."], []⟩) ∧
    (jsStrFalsy o.session = false → store.bucketName = "" →
      isValidConfig store o probe =
        ⟨false, ["Error: A valid bucket name is required for AwsS3Store."], []⟩) ∧
    (jsStrFalsy o.session = false → store.bucketName ≠ "" →
      store.remoteDataPath = "" →
      isValidConfig store o probe =
        ⟨false, ["Error: A valid remote dir path is required for AwsS3Store."], []⟩) ∧
    (jsStrFalsy o.session = false → store.bucketName ≠ "" →
      store.remoteDataPath ≠ "" → store.s3Client = false →
      isValidConfig store o probe =
        ⟨false, ["Error: A valid S3Client instance is required for AwsS3Store."], []⟩) ∧
    (jsStrFalsy o.session = false → store.bucketName ≠ "" →
      store.remoteDataPath ≠ "" → store.s3Client = true →
      ∀ r, probe = .ok r →
        ((isValidConfig store o probe).valid = true ↔
          r.metadata.bind ResponseMetadata.httpStatusCode = some 200)) ∧
    (jsStrFalsy o.session = false → store.bucketName ≠ "" →
      store.remoteDataPath ≠ "" → store.s3Client = true →
      ∀ e, probe = .error e → (isValidConfig store o probe).valid = true) := by
  refine ⟨fun h1 => ?_, fun h1 h2 => ?_, fun h1 h2 h3 => ?_,
    fun h1 h2 h3 h4 => ?_, fun h1 h2 h3 h4 r hr => ?_,
    fun h1 h2 h3 h4 e he => ?_⟩
  · simp [isValidConfig, h1]
  · simp [isValidConfig, h1, h2]
  · simp [isValidConfig, h1, h2, h3]
  · simp [isValidConfig, h1, h2, h3, h4]
  · subst hr
    rcases r with ⟨md⟩
    rcases md with _ | ⟨code⟩
    · simp [isValidConfig, h1, h2, h3, h4]
    · rcases code with _ | ⟨n⟩
      · simp [isValidConfig, h1, h2, h3, h4]
      · by_cases hn : n = 200
        · subst hn; simp [isValidConfig, h1, h2, h3, h4]
        · simp [isValidConfig, h1, h2, h3, h4, hn]
  · subst he
    simp [isValidConfig, h1, h2, h3, h4]

/-- Witness for C4: with the concrete store and options, a 200 probe
yields `true`, a thrown probe yields `true`, and a missing session
yields `false` with only the session diagnostic. -/
theorem isValidConfig_spec_witness :
    (isValidConfig exStore exOpts okProbe).valid = true ∧
    (isValidConfig exStore exOpts (.error ⟨"NetworkingError", "socket hang up"⟩)).valid = true ∧
    isValidConfig exStore { session := none, path := none } okProbe =
      ⟨false, ["Error: A valid session is required for AwsS3Store."], []⟩ := by
  refine ⟨?_, ?_, ?_⟩
  · exact ((isValidConfig_spec exStore exOpts okProbe).2.2.2.2.1
      (by decide) (by decide) (by decide) rfl _ rfl).mpr (by decide)
  · exact (isValidConfig_spec exStore exOpts
      (.error ⟨"NetworkingError", "socket hang up"⟩)).2.2.2.2.2
      (by decide) (by decide) (by decide) rfl _ rfl
  · exact (isValidConfig_spec exStore { session := none, path := none } okProbe).1
      (by decide)

/-! ## C5: existence check -/

/-- C5: when the configuration is valid, `sessionExists` returns `true`
on a successful head probe, `false` on a `NoSuchKey`/`NotFound` error,
and `undefined` (`none`) on any other error; being a total function into
`Option Bool`, it never raises. -/
theorem sessionExists_spec (store : AwsS3Store) (o : CallOptions)
    (env : ProbeEnv)
    (hv : (isValidConfig store o env.listObjects).valid = true) :
    (env.headObject = .ok () → (sessionExists store o env).1 = some true) ∧
    (∀ e, env.headObject = .error e →
      ((e.name = "NoSuchKey" ∨ e.name = "NotFound") →
        (sessionExists store o env).1 = some false) ∧
      (¬(e.name = "NoSuchKey" ∨ e.name = "NotFound") →
        (sessionExists store o env).1 = none)) := by
  constructor
  · intro hh
    simp [sessionExists, hv, hh]
  · intro e hh
    constructor
    · intro hname
      simp [sessionExists, hv, hh, hname]
    · intro hname
      simp [sessionExists, hv, hh, hname]

/-- Witness for C5: with the concrete store, a head success gives
`some true`, a `NotFound` error gives `some false`, and an
`AccessDenied` error gives `none`. -/
theorem sessionExists_spec_witness :
    (sessionExists exStore exOpts
      { listObjects := okProbe, headObject := .ok (),
        deleteObject := .ok () }).1 = some true ∧
    (sessionExists exStore exOpts
      { listObjects := okProbe, headObject := .error ⟨"NotFound", "404"⟩,
        deleteObject := .ok () }).1 = some false ∧
    (sessionExists exStore exOpts
      { listObjects := okProbe, headObject := .error ⟨"AccessDenied", "403"⟩,
        deleteObject := .ok () }).1 = none := by
  refine ⟨?_, ?_, ?_⟩
  · exact (sessionExists_spec exStore exOpts _ (by decide)).1 rfl
  · exact ((sessionExists_spec exStore exOpts _ (by decide)).2 _ rfl).1 (by decide)
  · exact ((sessionExists_spec exStore exOpts _ (by decide)).2 _ rfl).2 (by decide)

/-! ## C6: delete -/

/-- C6: `delete` never raises (its JS outcome is a normal return for
every environment); the `DeleteObjectCommand` is sent only when the
preceding head probe succeeded; and when the head probe fails — with
`NoSuchKey`/`NotFound` or any other error alike — the method is a no-op
that sends no delete.  Since the method is a pure function of its
environment, a second call on an already-deleted key is exactly the
head-fails case, so deleting twice never raises. -/
theorem delete_never_raises (store : AwsS3Store) (o : CallOptions)
    (env : ProbeEnv) :
    (deletePure store o env).1 = .ok () ∧
    (∀ b k, S3Command.deleteObject b k ∈ (deletePure store o env).2 →
      env.headObject.isOk = true) ∧
    ((isValidConfig store o env.listObjects).valid = true →
      ∀ e, env.headObject = .error e →
        (deletePure store o env).2 =
          (isValidConfig store o env.listObjects).cmds ++
            [S3Command.headObject store.bucketName
              (deriveKey store.remoteDataPath (jsStr o.session))]) := by
  refine ⟨?_, ?_, ?_⟩
  · unfold deletePure
    dsimp only
    split
    · rfl
    · split
      · split
        · rfl
        · split <;> rfl
      · split <;> rfl
  · intro b k hmem
    have hnotin : S3Command.deleteObject b k ∉
        (isValidConfig store o env.listObjects).cmds := by
      intro hmem2
      have := isValidConfig_cmds store o env.listObjects _ hmem2
      simp at this
    unfold deletePure at hmem
    dsimp only at hmem
    split at hmem
    · exact absurd hmem hnotin
    · split at hmem
      · rename_i a heq
        rw [heq]
        rfl
      · split at hmem <;>
          · exfalso
            simp only [List.mem_append, List.mem_singleton] at hmem
            rcases hmem with hmem2 | hmem2
            · exact hnotin hmem2
            · simp at hmem2
  · intro hv e hh
    unfold deletePure
    simp [hv, hh]

/-- Witness for C6: with the concrete store, deleting when the head
probe reports `NotFound` (e.g. a second delete of the same session, or a
delete of a never-saved session) returns normally and sends no
`DeleteObjectCommand`. -/
theorem delete_never_raises_witness :
    (deletePure exStore exOpts
      { listObjects := okProbe, headObject := .error ⟨"NotFound", "404"⟩,
        deleteObject := .ok () }).1 = .ok () ∧
    (deletePure exStore exOpts
      { listObjects := okProbe, headObject := .error ⟨"NotFound", "404"⟩,
        deleteObject := .ok () }).2 =
      [S3Command.listObjects "bkt",
       S3Command.headObject "bkt" "prod/auth/work-phone.zip"] := by
  constructor
  · exact (delete_never_raises exStore exOpts _).1
  · have h := (delete_never_raises exStore exOpts
      { listObjects := okProbe, headObject := .error ⟨"NotFound", "404"⟩,
        deleteObject := .ok () }).2.2 (by decide) ⟨"NotFound", "404"⟩ rfl
    rw [h]
    decide

/-- Every command the stream loop sends is an `UploadPartCommand` on the
given bucket, key and upload id. -/
theorem streamLoop_cmds_shape (env : SaveEnv) (b k u : String) :
    ∀ (chunks : List (List Nat)) (pn : Nat) (buf : List (List Nat)),
      ∀ c ∈ (streamLoop env b k u chunks pn buf).2,
        ∃ n body, c = S3Command.uploadPart b k u n body := by
  intro chunks
  induction chunks with
  | nil =>
    intro pn buf c hc
    simp [streamLoop] at hc
  | cons ch rest ih =>
    intro pn buf c hc
    rw [streamLoop] at hc
    dsimp only at hc
    split at hc
    · split at hc
      · simp at hc
        exact ⟨pn, _, hc⟩
      · simp at hc
        rcases hc with hc | hc
        · exact ⟨pn, _, hc⟩
        · exact ih _ _ c hc
    · exact ih _ _ c hc

/-- The 20 MiB part threshold is positive. -/
theorem partSize_pos : 0 < partSize := by decide

/-- When every `UploadPartCommand` succeeds, the stream loop returns
normally; and if it consumed any data at all, it either uploaded a part
or left a non-empty buffer. -/
theorem streamLoop_ok (env : SaveEnv) (b k u : String) (et : Nat → String)
    (hup : ∀ n, env.uploadPart n = .ok (et n)) :
    ∀ (chunks : List (List Nat)) (pn : Nat) (buf : List (List Nat)),
      ∃ parts pnF bufF,
        (streamLoop env b k u chunks pn buf).1 = .ok (parts, pnF, bufF) ∧
        (buf ++ chunks ≠ [] →
          ((streamLoop env b k u chunks pn buf).2 ≠ [] ∨ bufF ≠ [])) := by
  intro chunks
  induction chunks with
  | nil =>
    intro pn buf
    refine ⟨[], pn, buf, rfl, ?_⟩
    intro hne
    right
    simpa using hne
  | cons ch rest ih =>
    intro pn buf
    rw [streamLoop]
    dsimp only
    split
    · rw [hup pn]
      obtain ⟨parts, pnF, bufF, hok, hyp⟩ := ih (pn + 1) []
      refine ⟨⟨pn, et pn⟩ :: parts, pnF, bufF, ?_, ?_⟩
      · dsimp only
        rw [hok]
        rfl
      · intro _
        left
        simp
    · obtain ⟨parts, pnF, bufF, hok, hyp⟩ := ih pn (buf ++ [ch])
      refine ⟨parts, pnF, bufF, hok, ?_⟩
      intro _
      exact hyp (by simp)

/-- Flush invariant of the stream loop: starting from a buffer below the
threshold, every part uploaded from inside the loop has at least
`partSize` bytes, and (chunks being at most `C` bytes) fewer than
`partSize + C` bytes. -/
theorem streamLoop_part_sizes (env : SaveEnv) (b k u : String) (C : Nat) :
    ∀ (chunks : List (List Nat)) (pn : Nat) (buf : List (List Nat)),
      (∀ ch ∈ chunks, ch.length ≤ C) →
      buf.flatten.length < partSize →
      ∀ n body,
        S3Command.uploadPart b k u n body ∈ (streamLoop env b k u chunks pn buf).2 →
          partSize ≤ body.length ∧ body.length < partSize + C := by
  intro chunks
  induction chunks with
  | nil =>
    intro pn buf _ _ n body hmem
    simp [streamLoop] at hmem
  | cons ch rest ih =>
    intro pn buf hbound hbuf n body hmem
    rw [streamLoop] at hmem
    dsimp only at hmem
    split at hmem
    · rename_i hflush
      have hlen : (buf ++ [ch]).flatten.length < partSize + C := by
        have : ch.length ≤ C := hbound ch (by simp)
        simp only [List.flatten_append, List.flatten_cons, List.flatten_nil,
          List.append_nil, List.length_append]
        omega
      split at hmem
      · simp at hmem
        obtain ⟨rfl, rfl⟩ := hmem
        refine ⟨by simpa using hflush, by simpa using hlen⟩
      · simp at hmem
        rcases hmem with ⟨rfl, rfl⟩ | hmem
        · refine ⟨by simpa using hflush, by simpa using hlen⟩
        · exact ih (pn + 1) [] (fun c hc => hbound c (by simp [hc]))
            (by simpa using partSize_pos) n body hmem
    · rename_i hnoflush
      exact ih pn (buf ++ [ch]) (fun c hc => hbound c (by simp [hc]))
        (by omega) n body hmem

/-- Byte count of a buffer of `n` equal chunks. -/
theorem length_flatten_replicate (n : Nat) (l : List Nat) :
    (List.replicate n l).flatten.length = n * l.length := by
  induction n with
  | zero => simp
  | succ m ih => simp [List.replicate_succ, ih, Nat.succ_mul]; omega

/-- Exact characterization of the stream loop on a uniform stream of `m`
chunks of `c` bytes each, when `c` divides the part threshold
(`partSize = q * c`): starting with `j < q` buffered chunks it uploads
`(j + m) / q` full parts with consecutive part numbers starting at `pn`,
each of exactly `q` chunks, and leaves `(j + m) % q` chunks buffered. -/
theorem streamLoop_uniform (env : SaveEnv) (b k u : String) (et : Nat → String)
    (hup : ∀ n, env.uploadPart n = .ok (et n))
    (chunk : List Nat) (c q : Nat) (hc : chunk.length = c) (hc0 : 0 < c)
    (hq : partSize = q * c) :
    ∀ (m j pn : Nat), j < q →
      streamLoop env b k u (List.replicate m chunk) pn (List.replicate j chunk) =
        (.ok ((List.range' pn ((j + m) / q)).map (fun i => ⟨i, et i⟩),
          pn + (j + m) / q,
          List.replicate ((j + m) % q) chunk),
         (List.range' pn ((j + m) / q)).map
           (fun i => S3Command.uploadPart b k u i (List.replicate q chunk).flatten)) := by
  intro m
  induction m with
  | zero =>
    intro j pn hj
    simp [streamLoop, Nat.div_eq_of_lt hj, Nat.mod_eq_of_lt hj]
  | succ m ih =>
    intro j pn hj
    have hq0 : 0 < q := by omega
    rw [List.replicate_succ, streamLoop]
    dsimp only
    rw [show List.replicate j chunk ++ [chunk] = List.replicate (j + 1) chunk from
      (List.replicate_succ' j chunk).symm]
    have hlen : (List.replicate (j + 1) chunk).flatten.length = (j + 1) * c := by
      rw [length_flatten_replicate, hc]
    rcases Nat.lt_or_ge j (q - 1) with hlt | hge
    · -- j + 1 < q: no flush
      have hcond : ¬(partSize ≤ (List.replicate (j + 1) chunk).flatten.length) := by
        rw [hlen, hq]
        intro hle
        have := Nat.le_of_mul_le_mul_right hle hc0
        omega
      rw [if_neg hcond]
      rw [ih (j + 1) pn (by omega)]
      have : j + 1 + m = j + (m + 1) := by omega
      rw [this]
    · -- j + 1 = q: flush
      have hjq : j + 1 = q := by omega
      have hcond : partSize ≤ (List.replicate (j + 1) chunk).flatten.length := by
        rw [hlen, hq, hjq]
      rw [if_pos hcond, hup pn]
      dsimp only
      have ih0 := ih 0 (pn + 1) hq0
      simp only [List.replicate_zero, Nat.zero_add] at ih0
      rw [ih0]
      have harith : j + (m + 1) = m + q := by omega
      have hdiv : (j + (m + 1)) / q = m / q + 1 := by
        rw [harith]; exact Nat.add_div_right m hq0
      have hmod : (j + (m + 1)) % q = m % q := by
        rw [harith]; exact Nat.add_mod_right m q ▸ rfl
      rw [hdiv, hmod]
      rw [List.range'_succ pn (m / q)]
      simp only [List.map_cons, Except.map, hjq]
      have hpn : pn + 1 + m / q = pn + (m / q + 1) := by omega
      rw [hpn]

/-- The stream loop never consults the filesystem: replacing the `fs`
field of the environment leaves it unchanged. -/
theorem streamLoop_fs_irrel (env : SaveEnv)
    (f2 : String → Except S3Error FileInfo) (b k u : String) :
    ∀ (chunks : List (List Nat)) (pn : Nat) (buf : List (List Nat)),
      streamLoop { env with fs := f2 } b k u chunks pn buf =
        streamLoop env b k u chunks pn buf := by
  intro chunks
  induction chunks with
  | nil => intro pn buf; rfl
  | cons ch rest ih =>
    intro pn buf
    rw [streamLoop, streamLoop]
    dsimp only
    have hupeq : ({ env with fs := f2 } : SaveEnv).uploadPart = env.uploadPart := rfl
    rw [hupeq]
    split
    · cases hx : env.uploadPart pn with
      | error e => rfl
      | ok etag =>
        dsimp only
        rw [ih]
    · exact ih _ _

/-- C9: `save` derives the local archive path solely from the session
identifier as `session + ".zip"` (relative to the working directory); a
caller-supplied `options.path` is never consulted (options agreeing on
`session` behave identically), and the filesystem is consulted only at
that path (environments whose `fs` agree there behave identically). -/
theorem save_local_path (store : AwsS3Store) (o1 o2 : CallOptions)
    (env : SaveEnv) (f2 : String → Except S3Error FileInfo)
    (hs : o1.session = o2.session)
    (hf : f2 (localArchivePath o1) = env.fs (localArchivePath o1)) :
    localArchivePath o1 = jsStr o1.session ++ ".zip" ∧
    savePure store o1 env = savePure store o2 env ∧
    savePure store o1 { env with fs := f2 } = savePure store o1 env := by
  refine ⟨rfl, ?_, ?_⟩
  · cases o1 with
    | mk s1 p1 =>
      cases o2 with
      | mk s2 p2 =>
        simp only [CallOptions.session] at hs
        subst hs
        rfl
  · unfold savePure
    dsimp only
    rw [hf]
    simp only [streamLoop_fs_irrel]

/-- Witness for C9: two options objects differing only in their `path`
field produce identical `save` behaviour, and so do two filesystems
agreeing at `"work-phone.zip"`. -/
theorem save_local_path_witness :
    savePure exStore { session := some "work-phone", path := some "/a" } exSaveEnv =
      savePure exStore { session := some "work-phone", path := some "/b" } exSaveEnv ∧
    savePure exStore exOpts { exSaveEnv with fs := exAltFs } =
      savePure exStore exOpts exSaveEnv :=
  ⟨(save_local_path exStore
      { session := some "work-phone", path := some "/a" }
      { session := some "work-phone", path := some "/b" }
      exSaveEnv exSaveEnv.fs rfl rfl).2.1,
   (save_local_path exStore exOpts exOpts exSaveEnv exAltFs rfl rfl).2.2⟩

/-- Full characterization of a multipart `save` in which the create and
every part upload succeed: the loop returns normally, the JS outcome is
exactly the outcome of the final complete call, and the trace is probe,
create, the loop's parts, an optional remainder part (for a non-empty
leftover buffer, numbered with the final part counter), and one
complete call carrying the recorded parts. -/
theorem savePure_multipart_success (store : AwsS3Store) (o : CallOptions)
    (env : SaveEnv) (info : FileInfo) (uid : String) (et : Nat → String)
    (hv : (isValidConfig store o env.listObjects).valid = true)
    (hfs : env.fs (localArchivePath o) = .ok info)
    (hbig : singleShotLimit < info.size)
    (hcr : env.createMultipartUpload = .ok uid)
    (hup : ∀ n, env.uploadPart n = .ok (et n)) :
    ∃ parts pnF bufF,
      (streamLoop env store.bucketName
        (deriveKey store.remoteDataPath (jsStr o.session)) uid info.chunks 1 []).1 =
        .ok (parts, pnF, bufF) ∧
      (info.chunks ≠ [] →
        (streamLoop env store.bucketName
          (deriveKey store.remoteDataPath (jsStr o.session)) uid info.chunks 1 []).2 ≠ [] ∨
        bufF ≠ []) ∧
      (savePure store o env).1 = env.completeUpload ∧
      (savePure store o env).2 =
        (isValidConfig store o env.listObjects).cmds ++
          [S3Command.createMultipartUpload store.bucketName
            (deriveKey store.remoteDataPath (jsStr o.session)) "private" "application/zip"] ++
          (streamLoop env store.bucketName
            (deriveKey store.remoteDataPath (jsStr o.session)) uid info.chunks 1 []).2 ++
          (if bufF.length > 0 then
            [S3Command.uploadPart store.bucketName
              (deriveKey store.remoteDataPath (jsStr o.session)) uid pnF bufF.flatten]
           else []) ++
          [S3Command.completeMultipartUpload store.bucketName
            (deriveKey store.remoteDataPath (jsStr o.session)) uid
            (parts ++ if bufF.length > 0 then [⟨pnF, et pnF⟩] else [])] := by
  obtain ⟨parts, pnF, bufF, hok, hne⟩ :=
    streamLoop_ok env store.bucketName
      (deriveKey store.remoteDataPath (jsStr o.session)) uid et hup info.chunks 1 []
  have hnv : ¬((isValidConfig store o env.listObjects).valid = false) := by
    simp [hv]
  have hpair : savePure store o env =
      (env.completeUpload,
        (isValidConfig store o env.listObjects).cmds ++
          [S3Command.createMultipartUpload store.bucketName
            (deriveKey store.remoteDataPath (jsStr o.session)) "private" "application/zip"] ++
          (streamLoop env store.bucketName
            (deriveKey store.remoteDataPath (jsStr o.session)) uid info.chunks 1 []).2 ++
          (if bufF.length > 0 then
            [S3Command.uploadPart store.bucketName
              (deriveKey store.remoteDataPath (jsStr o.session)) uid pnF bufF.flatten]
           else []) ++
          [S3Command.completeMultipartUpload store.bucketName
            (deriveKey store.remoteDataPath (jsStr o.session)) uid
            (parts ++ if bufF.length > 0 then [⟨pnF, et pnF⟩] else [])]) := by
    unfold savePure
    dsimp only
    rw [if_neg hnv, hfs]
    dsimp only
    rw [if_neg (Nat.not_le.mpr hbig), hcr]
    dsimp only
    rw [hok]
    dsimp only
    by_cases hbuf : bufF.length > 0
    · rw [if_pos hbuf, hup pnF]
      dsimp only
      cases hcg : env.completeUpload with
      | ok u => cases u; simp [hbuf]
      | error e => simp [hbuf]
    · rw [if_neg hbuf]
      dsimp only
      cases hcg : env.completeUpload with
      | ok u => cases u; simp [hbuf]
      | error e => simp [hbuf]
  refine ⟨parts, pnF, bufF, hok, ?_, by rw [hpair], by rw [hpair]⟩
  intro hch
  exact hne (by simp [hch])

/-- In the multipart path - whatever the client outcomes - the trace is
the probe and the create command followed only by part uploads and
complete calls. -/
theorem savePure_multipart_tail (store : AwsS3Store) (o : CallOptions)
    (env : SaveEnv) (info : FileInfo)
    (hv : (isValidConfig store o env.listObjects).valid = true)
    (hfs : env.fs (localArchivePath o) = .ok info)
    (hbig : singleShotLimit < info.size) :
    ∃ tail,
      (savePure store o env).2 =
        (isValidConfig store o env.listObjects).cmds ++
          [S3Command.createMultipartUpload store.bucketName
            (deriveKey store.remoteDataPath (jsStr o.session))
            "private" "application/zip"] ++ tail ∧
      ∀ c ∈ tail, isUploadPartCmd c = true ∨ isCompleteCmd c = true := by
  have hnv : ¬((isValidConfig store o env.listObjects).valid = false) := by
    simp [hv]
  unfold savePure
  dsimp only
  rw [if_neg hnv, hfs]
  dsimp only
  rw [if_neg (Nat.not_le.mpr hbig)]
  cases hcr : env.createMultipartUpload with
  | error e =>
    dsimp only
    exact ⟨[], by simp, by simp⟩
  | ok uid =>
    dsimp only
    have hshape := streamLoop_cmds_shape env store.bucketName
      (deriveKey store.remoteDataPath (jsStr o.session)) uid info.chunks 1 []
    cases hloop : (streamLoop env store.bucketName
        (deriveKey store.remoteDataPath (jsStr o.session)) uid info.chunks 1 []).1 with
    | error e =>
      dsimp only
      refine ⟨(streamLoop env store.bucketName
        (deriveKey store.remoteDataPath (jsStr o.session)) uid info.chunks 1 []).2,
        by simp, ?_⟩
      intro c hc
      obtain ⟨n, body, rfl⟩ := hshape c hc
      left; rfl
    | ok triple =>
      obtain ⟨parts, pnF, bufF⟩ := triple
      dsimp only
      by_cases hbuf : bufF.length > 0
      · rw [if_pos hbuf]
        cases hupn : env.uploadPart pnF with
        | error e =>
          dsimp only
          refine ⟨(streamLoop env store.bucketName
            (deriveKey store.remoteDataPath (jsStr o.session)) uid info.chunks 1 []).2 ++
            [S3Command.uploadPart store.bucketName
              (deriveKey store.remoteDataPath (jsStr o.session)) uid pnF bufF.flatten],
            by simp, ?_⟩
          intro c hc
          rcases List.mem_append.mp hc with hc | hc
          · obtain ⟨n, body, rfl⟩ := hshape c hc
            left; rfl
          · rcases List.mem_singleton.mp hc with rfl
            left; rfl
        | ok etag =>
          dsimp only
          cases hcg : env.completeUpload with
          | ok u =>
            dsimp only
            refine ⟨(streamLoop env store.bucketName
              (deriveKey store.remoteDataPath (jsStr o.session)) uid info.chunks 1 []).2 ++
              [S3Command.uploadPart store.bucketName
                (deriveKey store.remoteDataPath (jsStr o.session)) uid pnF bufF.flatten] ++
              [S3Command.completeMultipartUpload store.bucketName
                (deriveKey store.remoteDataPath (jsStr o.session)) uid
                (parts ++ [⟨pnF, etag⟩])],
              by simp, ?_⟩
            intro c hc
            rcases List.mem_append.mp hc with hc | hc
            · rcases List.mem_append.mp hc with hc | hc
              · obtain ⟨n, body, rfl⟩ := hshape c hc
                left; rfl
              · rcases List.mem_singleton.mp hc with rfl
                left; rfl
            · rcases List.mem_singleton.mp hc with rfl
              right; rfl
          | error e2 =>
            dsimp only
            refine ⟨(streamLoop env store.bucketName
              (deriveKey store.remoteDataPath (jsStr o.session)) uid info.chunks 1 []).2 ++
              [S3Command.uploadPart store.bucketName
                (deriveKey store.remoteDataPath (jsStr o.session)) uid pnF bufF.flatten] ++
              [S3Command.completeMultipartUpload store.bucketName
                (deriveKey store.remoteDataPath (jsStr o.session)) uid
                (parts ++ [⟨pnF, etag⟩])],
              by simp, ?_⟩
            intro c hc
            rcases List.mem_append.mp hc with hc | hc
            · rcases List.mem_append.mp hc with hc | hc
              · obtain ⟨n, body, rfl⟩ := hshape c hc
                left; rfl
              · rcases List.mem_singleton.mp hc with rfl
                left; rfl
            · rcases List.mem_singleton.mp hc with rfl
              right; rfl
      · rw [if_neg hbuf]
        dsimp only
        cases hcg : env.completeUpload with
        | ok u =>
          dsimp only
          refine ⟨(streamLoop env store.bucketName
            (deriveKey store.remoteDataPath (jsStr o.session)) uid info.chunks 1 []).2 ++
            [S3Command.completeMultipartUpload store.bucketName
              (deriveKey store.remoteDataPath (jsStr o.session)) uid parts],
            by simp, ?_⟩
          intro c hc
          rcases List.mem_append.mp hc with hc | hc
          · obtain ⟨n, body, rfl⟩ := hshape c hc
            left; rfl
          · rcases List.mem_singleton.mp hc with rfl
            right; rfl
        | error e2 =>
          dsimp only
          refine ⟨(streamLoop env store.bucketName
            (deriveKey store.remoteDataPath (jsStr o.session)) uid info.chunks 1 []).2 ++
            [S3Command.completeMultipartUpload store.bucketName
              (deriveKey store.remoteDataPath (jsStr o.session)) uid parts],
            by simp, ?_⟩
          intro c hc
          rcases List.mem_append.mp hc with hc | hc
          · obtain ⟨n, body, rfl⟩ := hshape c hc
            left; rfl
          · rcases List.mem_singleton.mp hc with rfl
            right; rfl

/-- An invalid configuration makes `save` a no-op returning
`undefined`. -/
theorem savePure_invalid (store : AwsS3Store) (o : CallOptions) (env : SaveEnv)
    (hv : (isValidConfig store o env.listObjects).valid = false) :
    savePure store o env = (.ok (), (isValidConfig store o env.listObjects).cmds) := by
  unfold savePure
  dsimp only
  rw [if_pos hv]

/-- A thrown `statSync` propagates out of `save` before any upload
command is sent. -/
theorem savePure_fs_error (store : AwsS3Store) (o : CallOptions) (env : SaveEnv)
    (e : S3Error)
    (hv : (isValidConfig store o env.listObjects).valid = true)
    (hfs : env.fs (localArchivePath o) = .error e) :
    savePure store o env = (.error e, (isValidConfig store o env.listObjects).cmds) := by
  have hnv : ¬((isValidConfig store o env.listObjects).valid = false) := by simp [hv]
  unfold savePure
  dsimp only
  rw [if_neg hnv, hfs]

/-- Single-shot path: at most 4 GiB means one `PutObjectCommand` with
zip content type and gzip content encoding, whose outcome is the
outcome of `save`. -/
theorem savePure_single_shot (store : AwsS3Store) (o : CallOptions) (env : SaveEnv)
    (info : FileInfo)
    (hv : (isValidConfig store o env.listObjects).valid = true)
    (hfs : env.fs (localArchivePath o) = .ok info)
    (hsmall : info.size ≤ singleShotLimit) :
    savePure store o env =
      (env.putObject,
        (isValidConfig store o env.listObjects).cmds ++
          [S3Command.putObject store.bucketName
            (deriveKey store.remoteDataPath (jsStr o.session))
            "application/zip" "gzip"]) := by
  have hnv : ¬((isValidConfig store o env.listObjects).valid = false) := by simp [hv]
  unfold savePure
  dsimp only
  rw [if_neg hnv, hfs]
  dsimp only
  rw [if_pos hsmall]
  cases hput : env.putObject with
  | ok u => cases u; rfl
  | error e => rfl

/-- A failed `CreateMultipartUploadCommand` propagates; only the probe
and the create command were sent. -/
theorem savePure_create_error (store : AwsS3Store) (o : CallOptions) (env : SaveEnv)
    (info : FileInfo) (e : S3Error)
    (hv : (isValidConfig store o env.listObjects).valid = true)
    (hfs : env.fs (localArchivePath o) = .ok info)
    (hbig : singleShotLimit < info.size)
    (hcr : env.createMultipartUpload = .error e) :
    savePure store o env =
      (.error e,
        (isValidConfig store o env.listObjects).cmds ++
          [S3Command.createMultipartUpload store.bucketName
            (deriveKey store.remoteDataPath (jsStr o.session))
            "private" "application/zip"]) := by
  have hnv : ¬((isValidConfig store o env.listObjects).valid = false) := by simp [hv]
  unfold savePure
  dsimp only
  rw [if_neg hnv, hfs]
  dsimp only
  rw [if_neg (Nat.not_le.mpr hbig), hcr]

/-- A part-upload error inside the stream loop propagates out of
`save`. -/
theorem savePure_loop_error (store : AwsS3Store) (o : CallOptions) (env : SaveEnv)
    (info : FileInfo) (uid : String) (e : S3Error)
    (hv : (isValidConfig store o env.listObjects).valid = true)
    (hfs : env.fs (localArchivePath o) = .ok info)
    (hbig : singleShotLimit < info.size)
    (hcr : env.createMultipartUpload = .ok uid)
    (hloop : (streamLoop env store.bucketName
      (deriveKey store.remoteDataPath (jsStr o.session)) uid info.chunks 1 []).1 =
      .error e) :
    savePure store o env =
      (.error e,
        (isValidConfig store o env.listObjects).cmds ++
          [S3Command.createMultipartUpload store.bucketName
            (deriveKey store.remoteDataPath (jsStr o.session))
            "private" "application/zip"] ++
          (streamLoop env store.bucketName
            (deriveKey store.remoteDataPath (jsStr o.session)) uid info.chunks 1 []).2) := by
  have hnv : ¬((isValidConfig store o env.listObjects).valid = false) := by simp [hv]
  unfold savePure
  dsimp only
  rw [if_neg hnv, hfs]
  dsimp only
  rw [if_neg (Nat.not_le.mpr hbig), hcr]
  dsimp only
  rw [hloop]

/-- A failed remainder-part upload (after a normal loop) propagates out
of `save`. -/
theorem savePure_rem_error (store : AwsS3Store) (o : CallOptions) (env : SaveEnv)
    (info : FileInfo) (uid : String) (parts : List PartEntry) (pnF : Nat)
    (bufF : List (List Nat)) (e : S3Error)
    (hv : (isValidConfig store o env.listObjects).valid = true)
    (hfs : env.fs (localArchivePath o) = .ok info)
    (hbig : singleShotLimit < info.size)
    (hcr : env.createMultipartUpload = .ok uid)
    (hloop : (streamLoop env store.bucketName
      (deriveKey store.remoteDataPath (jsStr o.session)) uid info.chunks 1 []).1 =
      .ok (parts, pnF, bufF))
    (hbuf : bufF.length > 0)
    (hupe : env.uploadPart pnF = .error e) :
    (savePure store o env).1 = .error e := by
  have hnv : ¬((isValidConfig store o env.listObjects).valid = false) := by simp [hv]
  unfold savePure
  dsimp only
  rw [if_neg hnv, hfs]
  dsimp only
  rw [if_neg (Nat.not_le.mpr hbig), hcr]
  dsimp only
  rw [hloop]
  dsimp only
  rw [if_pos hbuf, hupe]

/-- When every part upload fails with `e`, the loop either propagates
`e` (it flushed at least once) or returns with all input still
buffered. -/
theorem streamLoop_all_err (env : SaveEnv) (b k u : String) (e : S3Error)
    (hup : ∀ n, env.uploadPart n = .error e) :
    ∀ (chunks : List (List Nat)) (pn : Nat) (buf : List (List Nat)),
      (streamLoop env b k u chunks pn buf).1 = .error e ∨
      (streamLoop env b k u chunks pn buf).1 = .ok ([], pn, buf ++ chunks) := by
  intro chunks
  induction chunks with
  | nil =>
    intro pn buf
    right
    simp [streamLoop]
  | cons ch rest ih =>
    intro pn buf
    rw [streamLoop]
    dsimp only
    split
    · rw [hup pn]
      left
      rfl
    · rcases ih pn (buf ++ [ch]) with h | h
      · left; exact h
      · right
        rw [h]
        simp

/-- The commands of the validator contribute nothing to a count of
non-probe commands. -/
theorem validCmds_countP_zero (store : AwsS3Store) (o : CallOptions)
    (probe : Except S3Error ListObjectsResult) (p : S3Command → Bool)
    (hp : ∀ b, p (S3Command.listObjects b) = false) :
    (isValidConfig store o probe).cmds.countP p = 0 := by
  apply List.countP_eq_zero.mpr
  intro c hc
  rw [isValidConfig_cmds store o probe c hc, hp]
  simp

/-- The commands of the loop contribute nothing to a count of commands
other than part uploads. -/
theorem streamLoop_countP_zero (env : SaveEnv) (b k u : String)
    (chunks : List (List Nat)) (pn : Nat) (buf : List (List Nat))
    (p : S3Command → Bool)
    (hp : ∀ n body, p (S3Command.uploadPart b k u n body) = false) :
    (streamLoop env b k u chunks pn buf).2.countP p = 0 := by
  apply List.countP_eq_zero.mpr
  intro c hc
  obtain ⟨n, body, rfl⟩ := streamLoop_cmds_shape env b k u chunks pn buf c hc
  rw [hp]
  simp

/-- Every command of the loop counts as an `UploadPartCommand`. -/
theorem streamLoop_countP_upload (env : SaveEnv) (b k u : String)
    (chunks : List (List Nat)) (pn : Nat) (buf : List (List Nat)) :
    (streamLoop env b k u chunks pn buf).2.countP isUploadPartCmd =
      (streamLoop env b k u chunks pn buf).2.length := by
  apply List.countP_eq_length.mpr
  intro c hc
  obtain ⟨n, body, rfl⟩ := streamLoop_cmds_shape env b k u chunks pn buf c hc
  rfl

/-- C2: size-based strategy selection.  With a valid configuration and a
statable local archive: at most 4 GiB means exactly one
`PutObjectCommand` and no multipart command of any kind; above 4 GiB
means no `PutObjectCommand` and exactly one `CreateMultipartUploadCommand`,
and — when the multipart calls succeed and the stream yields data — at
least one `UploadPartCommand` and exactly one
`CompleteMultipartUploadCommand`. -/
theorem save_strategy (store : AwsS3Store) (o : CallOptions) (env : SaveEnv)
    (info : FileInfo)
    (hv : (isValidConfig store o env.listObjects).valid = true)
    (hfs : env.fs (localArchivePath o) = .ok info) :
    (info.size ≤ singleShotLimit →
      (savePure store o env).2.countP isPutCmd = 1 ∧
      (savePure store o env).2.countP isCreateCmd = 0 ∧
      (savePure store o env).2.countP isUploadPartCmd = 0 ∧
      (savePure store o env).2.countP isCompleteCmd = 0) ∧
    (singleShotLimit < info.size →
      (savePure store o env).2.countP isPutCmd = 0 ∧
      (savePure store o env).2.countP isCreateCmd = 1 ∧
      (∀ (uid : String) (et : Nat → String),
        env.createMultipartUpload = .ok uid →
        (∀ n, env.uploadPart n = .ok (et n)) →
        info.chunks ≠ [] →
        1 ≤ (savePure store o env).2.countP isUploadPartCmd ∧
        (savePure store o env).2.countP isCompleteCmd = 1)) := by
  constructor
  · intro hsmall
    have htr := savePure_single_shot store o env info hv hfs hsmall
    rw [htr]
    dsimp only
    simp only [List.countP_append, List.countP_cons, List.countP_nil]
    rw [validCmds_countP_zero store o env.listObjects isPutCmd (fun _ => rfl),
      validCmds_countP_zero store o env.listObjects isCreateCmd (fun _ => rfl),
      validCmds_countP_zero store o env.listObjects isUploadPartCmd (fun _ => rfl),
      validCmds_countP_zero store o env.listObjects isCompleteCmd (fun _ => rfl)]
    simp [isPutCmd, isCreateCmd, isUploadPartCmd, isCompleteCmd]
  · intro hbig
    obtain ⟨tail, htr, htail⟩ := savePure_multipart_tail store o env info hv hfs hbig
    have htail_put : tail.countP isPutCmd = 0 := by
      apply List.countP_eq_zero.mpr
      intro c hc
      have h := htail c hc
      cases c <;> simp_all [isUploadPartCmd, isCompleteCmd, isPutCmd]
    have htail_create : tail.countP isCreateCmd = 0 := by
      apply List.countP_eq_zero.mpr
      intro c hc
      have h := htail c hc
      cases c <;> simp_all [isUploadPartCmd, isCompleteCmd, isCreateCmd]
    refine ⟨?_, ?_, ?_⟩
    · rw [htr]
      simp only [List.countP_append, List.countP_cons, List.countP_nil]
      rw [validCmds_countP_zero store o env.listObjects isPutCmd (fun _ => rfl), htail_put]
      simp [isPutCmd]
    · rw [htr]
      simp only [List.countP_append, List.countP_cons, List.countP_nil]
      rw [validCmds_countP_zero store o env.listObjects isCreateCmd (fun _ => rfl), htail_create]
      simp [isCreateCmd]
    · intro uid et hcr hup hch
      obtain ⟨parts, pnF, bufF, hok, hne, hres, htr2⟩ :=
        savePure_multipart_success store o env info uid et hv hfs hbig hcr hup
      rw [htr2]
      simp only [List.countP_append, List.countP_cons, List.countP_nil]
      rw [validCmds_countP_zero store o env.listObjects isUploadPartCmd (fun _ => rfl),
        validCmds_countP_zero store o env.listObjects isCompleteCmd (fun _ => rfl),
        streamLoop_countP_upload,
        streamLoop_countP_zero env store.bucketName
          (deriveKey store.remoteDataPath (jsStr o.session)) uid info.chunks 1 []
          isCompleteCmd (fun _ _ => rfl)]
      constructor
      · rcases hne hch with hcmds | hbuf
        · have : 0 < (streamLoop env store.bucketName
            (deriveKey store.remoteDataPath (jsStr o.session)) uid info.chunks 1 []).2.length :=
            List.length_pos.mpr hcmds
          by_cases hb : bufF.length > 0
          · simp [hb, isUploadPartCmd, isCompleteCmd]
          · simp [hb, isUploadPartCmd, isCompleteCmd]
            omega
        · have hb : bufF.length > 0 := List.length_pos.mpr hbuf
          simp [hb, isUploadPartCmd]
      · by_cases hb : bufF.length > 0 <;>
          simp [hb, isUploadPartCmd, isCompleteCmd]

/-- Witness for C2: a valid 50 MiB archive is uploaded with a single
`PutObjectCommand` and no multipart command. -/
theorem save_strategy_witness :
    (savePure exStore exOpts exSaveEnv).2.countP isPutCmd = 1 ∧
    (savePure exStore exOpts exSaveEnv).2.countP isCreateCmd = 0 ∧
    (savePure exStore exOpts exSaveEnv).2.countP isUploadPartCmd = 0 ∧
    (savePure exStore exOpts exSaveEnv).2.countP isCompleteCmd = 0 :=
  (save_strategy exStore exOpts exSaveEnv ⟨50 * 1024 * 1024, [[1, 2, 3]]⟩
    (by decide) rfl).1 (by decide)

/-- C7: every transfer error propagates — a thrown stat, a failed
single-shot put, a failed multipart create, failing part uploads, or a
failed complete all make `save` return that very error — and no cleanup
is performed: no trace of `save`, in any environment, contains an
`AbortMultipartUploadCommand`. -/
theorem save_propagates_errors (store : AwsS3Store) (o : CallOptions)
    (env : SaveEnv) :
    (∀ c ∈ (savePure store o env).2, isAbortCmd c = false) ∧
    ((isValidConfig store o env.listObjects).valid = true →
      (∀ e, env.fs (localArchivePath o) = .error e →
        (savePure store o env).1 = .error e) ∧
      (∀ info e, env.fs (localArchivePath o) = .ok info →
        info.size ≤ singleShotLimit → env.putObject = .error e →
        (savePure store o env).1 = .error e) ∧
      (∀ info e, env.fs (localArchivePath o) = .ok info →
        singleShotLimit < info.size → env.createMultipartUpload = .error e →
        (savePure store o env).1 = .error e) ∧
      (∀ info uid e, env.fs (localArchivePath o) = .ok info →
        singleShotLimit < info.size → env.createMultipartUpload = .ok uid →
        (∀ n, env.uploadPart n = .error e) → info.chunks ≠ [] →
        (savePure store o env).1 = .error e) ∧
      (∀ info uid (et : Nat → String) e, env.fs (localArchivePath o) = .ok info →
        singleShotLimit < info.size → env.createMultipartUpload = .ok uid →
        (∀ n, env.uploadPart n = .ok (et n)) → env.completeUpload = .error e →
        (savePure store o env).1 = .error e)) := by
  constructor
  · intro c hc
    by_cases hv : (isValidConfig store o env.listObjects).valid = true
    · cases hfs : env.fs (localArchivePath o) with
      | error e =>
        rw [savePure_fs_error store o env e hv hfs] at hc
        rw [isValidConfig_cmds store o env.listObjects c hc]
        rfl
      | ok info =>
        rcases le_or_lt info.size singleShotLimit with hsmall | hbig
        · rw [savePure_single_shot store o env info hv hfs hsmall] at hc
          dsimp only at hc
          rcases List.mem_append.mp hc with hc | hc
          · rw [isValidConfig_cmds store o env.listObjects c hc]
            rfl
          · rcases List.mem_singleton.mp hc with rfl
            rfl
        · obtain ⟨tail, htr, htail⟩ :=
            savePure_multipart_tail store o env info hv hfs hbig
          rw [htr] at hc
          rcases List.mem_append.mp hc with hc | hc
          · rcases List.mem_append.mp hc with hc | hc
            · rw [isValidConfig_cmds store o env.listObjects c hc]
              rfl
            · rcases List.mem_singleton.mp hc with rfl
              rfl
          · have h := htail c hc
            cases c <;> simp_all [isUploadPartCmd, isCompleteCmd, isAbortCmd]
    · have hv2 : (isValidConfig store o env.listObjects).valid = false := by
        cases h2 : (isValidConfig store o env.listObjects).valid
        · rfl
        · exact absurd h2 hv
      rw [savePure_invalid store o env hv2] at hc
      rw [isValidConfig_cmds store o env.listObjects c hc]
      rfl
  · intro hv
    refine ⟨?_, ?_, ?_, ?_, ?_⟩
    · intro e hfs
      rw [savePure_fs_error store o env e hv hfs]
    · intro info e hfs hsmall hput
      rw [savePure_single_shot store o env info hv hfs hsmall]
      exact hput
    · intro info e hfs hbig hcr
      rw [savePure_create_error store o env info e hv hfs hbig hcr]
    · intro info uid e hfs hbig hcr hup hch
      rcases streamLoop_all_err env store.bucketName
          (deriveKey store.remoteDataPath (jsStr o.session)) uid e hup
          info.chunks 1 [] with hloop | hloop
      · rw [savePure_loop_error store o env info uid e hv hfs hbig hcr hloop]
      · have hbuf : (([] : List (List Nat)) ++ info.chunks).length > 0 := by
          simp [List.length_pos.mpr hch]
        exact savePure_rem_error store o env info uid [] 1 ([] ++ info.chunks) e
          hv hfs hbig hcr hloop hbuf (hup 1)
    · intro info uid et e hfs hbig hcr hup hcg
      obtain ⟨parts, pnF, bufF, hok, hne, hres, htr2⟩ :=
        savePure_multipart_success store o env info uid et hv hfs hbig hcr hup
      rw [hres, hcg]

/-- Witness for C7: with the 50 MiB archive environment but a client
whose put fails with `InternalError`, `save` re-raises exactly that
error, and its trace contains no abort command. -/
theorem save_propagates_errors_witness :
    (savePure exStore exOpts
      { exSaveEnv with putObject := .error ⟨"InternalError", "500"⟩ }).1 =
      .error ⟨"InternalError", "500"⟩ ∧
    ∀ c ∈ (savePure exStore exOpts
      { exSaveEnv with putObject := .error ⟨"InternalError", "500"⟩ }).2,
      isAbortCmd c = false :=
  ⟨((save_propagates_errors exStore exOpts
      { exSaveEnv with putObject := .error ⟨"InternalError", "500"⟩ }).2
      (by decide)).2.1 ⟨50 * 1024 * 1024, [[1, 2, 3]]⟩ ⟨"InternalError", "500"⟩
      rfl (by decide) rfl,
   (save_propagates_errors exStore exOpts
      { exSaveEnv with putObject := .error ⟨"InternalError", "500"⟩ }).1⟩

/-- C10: every part uploaded from inside the stream loop holds at least
`partSize` (20 MiB) bytes and — chunks being at most `C` bytes — fewer
than `partSize + C` bytes; in the full `save` trace the upload commands
are those loop parts followed by at most one remainder part, so only the
final part can be smaller than 20 MiB. -/
theorem multipart_part_sizes (store : AwsS3Store) (o : CallOptions)
    (env : SaveEnv) (info : FileInfo) (uid : String) (et : Nat → String) (C : Nat)
    (hv : (isValidConfig store o env.listObjects).valid = true)
    (hfs : env.fs (localArchivePath o) = .ok info)
    (hbig : singleShotLimit < info.size)
    (hcr : env.createMultipartUpload = .ok uid)
    (hup : ∀ n, env.uploadPart n = .ok (et n))
    (hbound : ∀ ch ∈ info.chunks, ch.length ≤ C) :
    (∀ n body,
      S3Command.uploadPart store.bucketName
        (deriveKey store.remoteDataPath (jsStr o.session)) uid n body ∈
        (streamLoop env store.bucketName
          (deriveKey store.remoteDataPath (jsStr o.session)) uid info.chunks 1 []).2 →
      partSize ≤ body.length ∧ body.length < partSize + C) ∧
    (∃ l r, (savePure store o env).2.filter isUploadPartCmd = l ++ r ∧
      r.length ≤ 1 ∧
      ∀ c ∈ l, partSize ≤ uploadBodyLen c ∧ uploadBodyLen c < partSize + C) := by
  have hsizes := streamLoop_part_sizes env store.bucketName
    (deriveKey store.remoteDataPath (jsStr o.session)) uid C info.chunks 1 []
    hbound (by simpa using partSize_pos)
  refine ⟨fun n body => hsizes n body, ?_⟩
  obtain ⟨parts, pnF, bufF, hok, hne, hres, htr⟩ :=
    savePure_multipart_success store o env info uid et hv hfs hbig hcr hup
  refine ⟨(streamLoop env store.bucketName
      (deriveKey store.remoteDataPath (jsStr o.session)) uid info.chunks 1 []).2,
    (if bufF.length > 0 then
      [S3Command.uploadPart store.bucketName
        (deriveKey store.remoteDataPath (jsStr o.session)) uid pnF bufF.flatten]
     else []), ?_, ?_, ?_⟩
  · rw [htr]
    have hvfilter : (isValidConfig store o env.listObjects).cmds.filter isUploadPartCmd = [] := by
      apply List.filter_eq_nil_iff.mpr
      intro c hc
      rw [isValidConfig_cmds store o env.listObjects c hc]
      simp [isUploadPartCmd]
    have hloopfilter : (streamLoop env store.bucketName
        (deriveKey store.remoteDataPath (jsStr o.session)) uid info.chunks 1 []).2.filter
          isUploadPartCmd =
        (streamLoop env store.bucketName
          (deriveKey store.remoteDataPath (jsStr o.session)) uid info.chunks 1 []).2 := by
      apply List.filter_eq_self.mpr
      intro c hc
      obtain ⟨n, body, rfl⟩ := streamLoop_cmds_shape env store.bucketName
        (deriveKey store.remoteDataPath (jsStr o.session)) uid info.chunks 1 [] c hc
      rfl
    by_cases hb : bufF.length > 0 <;>
      simp [hb, List.filter_append, hvfilter, hloopfilter, isUploadPartCmd]
  · by_cases hb : bufF.length > 0 <;> simp [hb]
  · intro c hc
    obtain ⟨n, body, rfl⟩ := streamLoop_cmds_shape env store.bucketName
      (deriveKey store.remoteDataPath (jsStr o.session)) uid info.chunks 1 [] c hc
    exact hsizes n body hc

/-- Multipart `save` on a uniform stream of `k` chunks of `c` bytes,
`partSize = q * c`: the complete call receives `k / q` full parts plus
one remainder part exactly when `q` does not divide `k`, numbered
consecutively from 1. -/
theorem savePure_multipart_uniform (store : AwsS3Store) (o : CallOptions)
    (env : SaveEnv) (info : FileInfo) (uid : String) (et : Nat → String)
    (chunk : List Nat) (c q k : Nat)
    (hv : (isValidConfig store o env.listObjects).valid = true)
    (hfs : env.fs (localArchivePath o) = .ok info)
    (hchunks : info.chunks = List.replicate k chunk)
    (hclen : chunk.length = c) (hc0 : 0 < c) (hq : partSize = q * c)
    (hbig : singleShotLimit < info.size)
    (hcr : env.createMultipartUpload = .ok uid)
    (hup : ∀ n, env.uploadPart n = .ok (et n)) :
    ∃ parts,
      (savePure store o env).2.filter isCompleteCmd =
        [S3Command.completeMultipartUpload store.bucketName
          (deriveKey store.remoteDataPath (jsStr o.session)) uid parts] ∧
      parts.map PartEntry.PartNumber =
        List.range' 1 (k / q + if k % q = 0 then 0 else 1) ∧
      parts.length = k / q + (if k % q = 0 then 0 else 1) := by
  have hq0 : 0 < q := by
    rcases Nat.eq_zero_or_pos q with h | h
    · exfalso
      have := partSize_pos
      rw [hq, h] at this
      simp at this
    · exact h
  obtain ⟨parts0, pnF, bufF, hok, hne, hres, htr⟩ :=
    savePure_multipart_success store o env info uid et hv hfs hbig hcr hup
  have huni := streamLoop_uniform env store.bucketName
    (deriveKey store.remoteDataPath (jsStr o.session)) uid et hup chunk c q
    hclen hc0 hq k 0 1 hq0
  rw [← hchunks] at huni
  simp only [List.replicate_zero, Nat.zero_add] at huni
  have h1 : (streamLoop env store.bucketName
      (deriveKey store.remoteDataPath (jsStr o.session)) uid info.chunks 1 []).1 =
      .ok ((List.range' 1 (k / q)).map (fun i => ⟨i, et i⟩),
        1 + k / q, List.replicate (k % q) chunk) := by
    rw [huni]
  rw [h1] at hok
  obtain ⟨hparts0, hpnF, hbufF⟩ : parts0 = (List.range' 1 (k / q)).map (fun i => ⟨i, et i⟩) ∧
      pnF = 1 + k / q ∧ bufF = List.replicate (k % q) chunk := by
    have := hok
    injection this with h2
    injection h2 with ha hb
    injection hb with hb1 hb2
    exact ⟨ha.symm, hb1.symm, hb2.symm⟩
  have hbufLen : bufF.length = k % q := by rw [hbufF, List.length_replicate]
  have hfilter : (savePure store o env).2.filter isCompleteCmd =
      [S3Command.completeMultipartUpload store.bucketName
        (deriveKey store.remoteDataPath (jsStr o.session)) uid
        (parts0 ++ if bufF.length > 0 then [⟨pnF, et pnF⟩] else [])] := by
    rw [htr]
    have hvfilter : (isValidConfig store o env.listObjects).cmds.filter isCompleteCmd = [] := by
      apply List.filter_eq_nil_iff.mpr
      intro x hx
      rw [isValidConfig_cmds store o env.listObjects x hx]
      simp [isCompleteCmd]
    have hloopfilter : (streamLoop env store.bucketName
        (deriveKey store.remoteDataPath (jsStr o.session)) uid info.chunks 1 []).2.filter
          isCompleteCmd = [] := by
      apply List.filter_eq_nil_iff.mpr
      intro x hx
      obtain ⟨n, body, rfl⟩ := streamLoop_cmds_shape env store.bucketName
        (deriveKey store.remoteDataPath (jsStr o.session)) uid info.chunks 1 [] x hx
      simp [isCompleteCmd]
    by_cases hb : bufF.length > 0 <;>
      simp [hb, List.filter_append, hvfilter, hloopfilter, isCompleteCmd, isUploadPartCmd,
        isCreateCmd]
  refine ⟨parts0 ++ if bufF.length > 0 then [⟨pnF, et pnF⟩] else [], hfilter, ?_, ?_⟩
  · by_cases hb : 0 < k % q
    · have hb2 : bufF.length > 0 := by rw [hbufLen]; exact hb
      have hbne : ¬(k % q = 0) := by omega
      simp only [hb2, if_pos, hbne, if_neg]
      rw [hparts0, hpnF]
      simp only [List.map_append, List.map_map, List.map_cons, List.map_nil]
      have : (PartEntry.PartNumber ∘ fun i => (⟨i, et i⟩ : PartEntry)) = id := rfl
      rw [this, List.map_id]
      rw [← List.range'_1_concat]
      simp
    · have hb2 : ¬(bufF.length > 0) := by omega
      have hbz : k % q = 0 := by omega
      have hcomp : (PartEntry.PartNumber ∘ fun i => (⟨i, et i⟩ : PartEntry)) = id := rfl
      simp [hb2, hbz, hparts0, List.map_map, hcomp]
  · by_cases hb : 0 < k % q
    · have hb2 : bufF.length > 0 := by rw [hbufLen]; exact hb
      have hbne : ¬(k % q = 0) := by omega
      simp [hb2, hbne, hparts0]
    · have hb2 : ¬(bufF.length > 0) := by omega
      have hbz : k % q = 0 := by omega
      simp [hb2, hbz, hparts0]

/-- C1 (amended): in the multipart path, for a local archive streamed as
`k` uniform chunks of 64 KiB (the Node stream default) with
`S = 65536 * k > 4 GiB` bytes, the part list handed to the single
`CompleteMultipartUploadCommand` has exactly `⌈S / partSize⌉` entries
whose part numbers are exactly `1..n` in strictly ascending order.
In particular a 4.5 GiB archive yields 231 parts, not 230. -/
theorem save_multipart_part_numbers (store : AwsS3Store) (o : CallOptions)
    (env : SaveEnv) (info : FileInfo) (uid : String) (et : Nat → String)
    (chunk : List Nat) (k : Nat)
    (hv : (isValidConfig store o env.listObjects).valid = true)
    (hfs : env.fs (localArchivePath o) = .ok info)
    (hchunks : info.chunks = List.replicate k chunk)
    (hclen : chunk.length = 65536)
    (hsize : info.size = 65536 * k)
    (hbig : singleShotLimit < info.size)
    (hcr : env.createMultipartUpload = .ok uid)
    (hup : ∀ n, env.uploadPart n = .ok (et n)) :
    ∃ parts,
      (savePure store o env).2.filter isCompleteCmd =
        [S3Command.completeMultipartUpload store.bucketName
          (deriveKey store.remoteDataPath (jsStr o.session)) uid parts] ∧
      parts.map PartEntry.PartNumber =
        List.range' 1 ((info.size + partSize - 1) / partSize) ∧
      parts.length = (info.size + partSize - 1) / partSize ∧
      (parts.map PartEntry.PartNumber).Pairwise (· < ·) := by
  obtain ⟨parts, hf, hm, hl⟩ := savePure_multipart_uniform store o env info uid et
    chunk 65536 320 k hv hfs hchunks hclen (by decide) (by decide) hbig hcr hup
  have harith : k / 320 + (if k % 320 = 0 then 0 else 1) =
      (info.size + partSize - 1) / partSize := by
    rw [hsize]
    show k / 320 + (if k % 320 = 0 then 0 else 1) =
      (65536 * k + (1024 * 1024 * 20) - 1) / (1024 * 1024 * 20)
    by_cases hkz : k % 320 = 0 <;> simp [hkz] <;> omega
  refine ⟨parts, hf, ?_, by rw [hl, harith], ?_⟩
  · rw [hm, harith]
  · rw [hm]
    exact List.pairwise_lt_range' _ _

/-- Witness for C1 (amended): the 4 GiB + 4 MiB archive
(65600 × 64 KiB, exactly 205 × 20 MiB) is completed with parts numbered
exactly `1..205` in ascending order. -/
theorem save_multipart_part_numbers_witness :
    ∃ parts,
      (savePure exStore exOpts exWitEnv).2.filter isCompleteCmd =
        [S3Command.completeMultipartUpload "bkt" "prod/auth/work-phone.zip"
          "uploadId" parts] ∧
      parts.map PartEntry.PartNumber = List.range' 1 205 ∧
      parts.length = 205 ∧
      (parts.map PartEntry.PartNumber).Pairwise (· < ·) := by
  obtain ⟨parts, hf, hm, hl, hp⟩ := save_multipart_part_numbers exStore exOpts exWitEnv
    ⟨4299161600, List.replicate 65600 (List.replicate 65536 0)⟩ "uploadId"
    (fun n => "etag-" ++ toString n) (List.replicate 65536 0) 65600
    (by decide) rfl rfl (by rw [List.length_replicate]) (by decide) (by decide) rfl
    (fun n => rfl)
  have hnum : (4299161600 + partSize - 1) / partSize = 205 := by decide
  have hkey : deriveKey exStore.remoteDataPath (jsStr exOpts.session) =
      "prod/auth/work-phone.zip" := by decide
  have hbkt : exStore.bucketName = "bkt" := rfl
  rw [hkey, hbkt] at hf
  dsimp only at hm hl
  rw [hnum] at hm hl
  exact ⟨parts, hf, hm, hl, hp⟩

/-- Counterexample to C1 as stated: saving the 4.5 GiB archive
(73728 × 64 KiB chunks) hands `CompleteMultipartUploadCommand` a part
list of 231 entries (230 full 20 MiB parts and one 8 MiB remainder), not
the 230 entries the claim asserts: `⌈4.5 GiB / 20 MiB⌉ = 231`. -/
theorem save_45GiB_part_count :
    ∃ parts,
      (savePure exStore exOpts exHugeEnv).2.filter isCompleteCmd =
        [S3Command.completeMultipartUpload "bkt" "prod/auth/work-phone.zip"
          "uploadId" parts] ∧
      parts.length = 231 ∧ ¬(parts.length = 230) := by
  obtain ⟨parts, hf, hm, hl⟩ := savePure_multipart_uniform exStore exOpts exHugeEnv
    ⟨4831838208, List.replicate 73728 (List.replicate 65536 0)⟩ "uploadId"
    (fun n => "etag-" ++ toString n) (List.replicate 65536 0) 65536 320 73728
    (by decide) rfl rfl (by rw [List.length_replicate]) (by decide) (by decide) (by decide)
    rfl (fun n => rfl)
  have hkey : deriveKey exStore.remoteDataPath (jsStr exOpts.session) =
      "prod/auth/work-phone.zip" := by decide
  have hbkt : exStore.bucketName = "bkt" := rfl
  rw [hkey, hbkt] at hf
  have hcount : 73728 / 320 + (if 73728 % 320 = 0 then 0 else 1) = 231 := by decide
  rw [hcount] at hl
  exact ⟨parts, hf, hl, by omega⟩

/-- Witness for C10: in the concrete multipart run the upload commands
split into loop parts (all of at least `partSize` bytes) followed by at
most one remainder part. -/
theorem multipart_part_sizes_witness :
    ∃ l r, (savePure exStore exOpts exBigEnv).2.filter isUploadPartCmd = l ++ r ∧
      r.length ≤ 1 ∧
      ∀ c ∈ l, partSize ≤ uploadBodyLen c ∧ uploadBodyLen c < partSize + 1 :=
  (multipart_part_sizes exStore exOpts exBigEnv ⟨4294967297, [[0]]⟩ "uploadId"
    (fun n => "etag-" ++ toString n) 1
    (by decide) rfl (by decide) rfl (fun n => rfl) (by decide)).2
